import Mathlib

/-!
Verification of the peer-to-peer trust and injection core of the wopr
repository. The definitions below are a shallow embedding of the relevant
TypeScript modules:

* `src/trust.ts` — trust store (grants, peers, authorization lookup,
  grant creation, revocation, key-rotation processing);
* `src/rate-limit.ts` — sliding-window rate limiter and replay protector;
* `src/cli.ts` — the responder frame pipeline (`handleConnection`) and the
  initiator inject path (`sendP2PInject`).

JavaScript conventions are embedded as follows: an optional field is an
`Option`; an optional array field is a `List` (an absent array and an empty
array behave identically in every function modelled here); JS string
truthiness (`""` is falsy) is made explicit via `strTruthy`; a `Map` is an
insertion-ordered association list; mutation of a store becomes explicit
state passing; `Date.now()` becomes an explicit `now : Int` argument.
Cryptographic primitives (signature verification, token decoding,
decryption) and the short-id hash live in `identity.ts`/`crypto`, outside
the embedded modules, and are abstracted as function parameters collected
in `CryptoOracle`.
-/

namespace Wopr

/-- JS string truthiness for an optional string field: `undefined` and the
empty string are falsy. -/
def strTruthy (s : Option String) : Bool :=
  match s with
  | none => false
  | some s => s != ""

/-- Lowercasing used by `.toLowerCase()` comparisons on peer names. -/
def lowerStr (s : String) : String := s.map Char.toLower

/-- Key-history entry attached to a grant or peer after a key rotation
(`KeyHistory` in `types.ts`, shape per spec §3 and `trust.ts`). -/
structure KeyHistory where
  publicKey : String
  encryptPub : String
  validFrom : Int
  validUntil : Int
  rotationReason : String
  deriving DecidableEq, Repr

/-- Inbound access grant (`AccessGrant`): `revoked` and `keyHistory` are
optional in TS (`undefined` ≡ `false` / `[]`). -/
structure AccessGrant where
  id : String
  peerKey : String
  peerEncryptPub : Option String
  sessions : List String
  caps : List String
  created : Int
  revoked : Bool
  peerName : Option String
  keyHistory : List KeyHistory
  deriving DecidableEq, Repr

/-- Outbound peer record (`Peer`). -/
structure Peer where
  id : String
  name : Option String
  publicKey : String
  encryptPub : Option String
  sessions : List String
  caps : List String
  added : Int
  keyHistory : List KeyHistory
  deriving DecidableEq, Repr

/-- Key-rotation record (`KeyRotation`), fields per `trust.ts` usage and
spec §3; the signature is carried opaquely. -/
structure KeyRotation where
  oldSignPub : String
  newSignPub : String
  newEncryptPub : String
  reason : String
  effectiveAt : Int
  gracePeriodMs : Int
  sig : String
  deriving DecidableEq, Repr

/-- Invite token (`InviteToken`), fields per spec §3 (`types.ts` is not
under `src/`; the fields are fixed by their uses in `cli.ts`/`trust.ts`). -/
structure InviteToken where
  iss : String
  sub : String
  ses : List String
  cap : List String
  iat : Int
  exp : Int
  nonce : String
  sig : String
  deriving DecidableEq, Repr

/-- Authorization lookup, `trust.ts` lines 37-67: first scan for a
non-revoked grant matching the current key, session and the `inject`
capability; then scan key histories of non-revoked grants whose
session/caps match, accepting an entry only while
`validUntil && now < validUntil` (JS truthiness of `validUntil` kept). -/
def isAuthorized (grants : List AccessGrant) (now : Int)
    (senderKey session : String) : Bool :=
  let current := grants.any fun g =>
    !g.revoked &&
    g.peerKey == senderKey &&
    (g.sessions.contains "*" || g.sessions.contains session) &&
    g.caps.contains "inject"
  if current then true
  else grants.any fun g =>
    !g.revoked &&
    (g.sessions.contains "*" || g.sessions.contains session) &&
    g.caps.contains "inject" &&
    g.keyHistory.any fun h =>
      h.publicKey == senderKey && h.validUntil != 0 && now < h.validUntil

/-- Grant lookup by current or historical key, `trust.ts` lines 72-90.
Note the history scan checks only `publicKey`, never `validUntil`. -/
def getGrantForPeer (grants : List AccessGrant) (peerKey : String) :
    Option AccessGrant :=
  match grants.find? (fun g => !g.revoked && g.peerKey == peerKey) with
  | some g => some g
  | none =>
      grants.find? fun g =>
        !g.revoked && g.keyHistory.any (fun h => h.publicKey == peerKey)

/-- Peer lookup by id, case-insensitive name, public key, or historical
key, `trust.ts` lines 96-119. -/
def findPeer (peers : List Peer) (idOrName : String) : Option Peer :=
  match peers.find? (fun p =>
      p.id == idOrName ||
      (match p.name with
       | some n => lowerStr n == lowerStr idOrName
       | none => false) ||
      p.publicKey == idOrName) with
  | some p => some p
  | none =>
      peers.find? fun p => p.keyHistory.any (fun h => h.publicKey == idOrName)

/-- Replacement of the first element satisfying `p` (the embedding of
`Array.prototype.find` / `findIndex` followed by in-place mutation). -/
def updateFirst (p : α → Bool) (f : α → α) : List α → List α
  | [] => []
  | x :: xs => if p x then f x :: xs else x :: updateFirst p f xs

/-- JS `Array.from(new Set(xs ++ ys))`: concatenation keeping only first
occurrences. -/
def setUnion (xs ys : List String) : List String := (xs ++ ys).eraseDups

/-- The new grant object of `trust.ts` lines 233-240: `revoked` is left
unset (false) and the id embeds the creation time. -/
def freshGrant (now : Int) (peerKey : String) (sessions caps : List String)
    (encryptPub : Option String) : AccessGrant :=
  { id := "grant-" ++ toString now
    peerKey := peerKey
    peerEncryptPub := encryptPub
    sessions := sessions
    caps := caps
    created := now
    revoked := false
    peerName := none
    keyHistory := [] }

/-- Grant creation / refresh, `trust.ts` lines 220-245: a non-revoked
grant with the same key is unioned in place (the encrypt key is replaced
only when the argument is truthy); otherwise a fresh grant is appended. -/
def grantAccess (grants : List AccessGrant) (now : Int) (peerKey : String)
    (sessions caps : List String) (encryptPub : Option String) :
    List AccessGrant :=
  if grants.any (fun g => g.peerKey == peerKey && !g.revoked) then
    updateFirst (fun g => g.peerKey == peerKey && !g.revoked)
      (fun g =>
        { g with
          sessions := setUnion g.sessions sessions
          caps := setUnion g.caps caps
          peerEncryptPub :=
            if strTruthy encryptPub then encryptPub else g.peerEncryptPub })
      grants
  else
    grants ++ [freshGrant now peerKey sessions caps encryptPub]

/-- Matcher used by `revokePeer`, `trust.ts` lines 156-163; `shortKeyFn`
abstracts `shortKey` from `identity.ts`. -/
def revokeMatches (shortKeyFn : String → String) (idOrName : String)
    (g : AccessGrant) : Bool :=
  !g.revoked &&
  (shortKeyFn g.peerKey == idOrName ||
   (match g.peerName with
    | some n => lowerStr n == lowerStr idOrName
    | none => false) ||
   g.id == idOrName ||
   g.peerKey == idOrName)

/-- Revocation, `trust.ts` lines 154-171: flag the first matching
non-revoked grant; `none` models the thrown `No active grant found`. -/
def revokePeer (shortKeyFn : String → String) (grants : List AccessGrant)
    (idOrName : String) : Option (List AccessGrant) :=
  if grants.any (revokeMatches shortKeyFn idOrName) then
    some (updateFirst (revokeMatches shortKeyFn idOrName)
      (fun g => { g with revoked := true }) grants)
  else none

/-- Guarded first-match update: `findIndex` followed by in-place mutation
when the index is not -1. -/
def applyFirstIfAny (p : α → Bool) (f : α → α) (l : List α) : List α :=
  if l.any p then updateFirst p f l else l

/-- Grant update performed by a rotation (`trust.ts` lines 357-376):
append the current key pair to the history with
`validUntil = effectiveAt + gracePeriodMs`, then install the new keys. -/
def rotateGrant (rotation : KeyRotation) (g : AccessGrant) : AccessGrant :=
  { g with
    keyHistory := g.keyHistory ++
      [{ publicKey := g.peerKey
         encryptPub := g.peerEncryptPub.getD ""
         validFrom := g.created
         validUntil := rotation.effectiveAt + rotation.gracePeriodMs
         rotationReason := rotation.reason }]
    peerKey := rotation.newSignPub
    peerEncryptPub := some rotation.newEncryptPub }

/-- Peer update performed by a rotation (`trust.ts` lines 380-402). -/
def rotatePeer (shortKeyFn : String → String) (rotation : KeyRotation)
    (p : Peer) : Peer :=
  { p with
    keyHistory := p.keyHistory ++
      [{ publicKey := p.publicKey
         encryptPub := p.encryptPub.getD ""
         validFrom := p.added
         validUntil := rotation.effectiveAt + rotation.gracePeriodMs
         rotationReason := rotation.reason }]
    publicKey := rotation.newSignPub
    encryptPub := some rotation.newEncryptPub
    id := shortKeyFn rotation.newSignPub }

/-- Key-rotation processing, `trust.ts` lines 346-405. `verifyKR`
abstracts `verifyKeyRotation` from `identity.ts` (per spec §4.2 it
verifies the signature under `oldSignPub`); `shortKeyFn` abstracts
`shortKey`. The first non-revoked grant keyed by the old key and the
first peer record keyed by the old key are rotated; the flag is true iff
at least one record matched. -/
def processPeerKeyRotation (verifyKR : KeyRotation → Bool)
    (shortKeyFn : String → String) (rotation : KeyRotation)
    (grants : List AccessGrant) (peers : List Peer) :
    Bool × List AccessGrant × List Peer :=
  if !verifyKR rotation then (false, grants, peers)
  else
    (grants.any (fun g => g.peerKey == rotation.oldSignPub && !g.revoked) ||
       peers.any (fun p => p.publicKey == rotation.oldSignPub),
     applyFirstIfAny (fun g => g.peerKey == rotation.oldSignPub && !g.revoked)
       (rotateGrant rotation) grants,
     applyFirstIfAny (fun p => p.publicKey == rotation.oldSignPub)
       (rotatePeer shortKeyFn rotation) peers)

/-- Configuration of one limit class (`RateLimitConfig`). -/
structure RateLimitConfig where
  windowMs : Int
  maxRequests : Nat
  blockDurationMs : Int
  deriving DecidableEq, Repr

/-- The four named limit classes (`keyof RateLimits`). -/
inductive LimitClass where
  | connections
  | claims
  | injects
  | invalidMessages
  deriving DecidableEq, Repr

/-- Configuration table (`RateLimits`). -/
structure RateLimits where
  connections : RateLimitConfig
  claims : RateLimitConfig
  injects : RateLimitConfig
  invalidMessages : RateLimitConfig
  deriving DecidableEq, Repr

/-- Field selection `this.limits[limitType]`. -/
def RateLimits.get (l : RateLimits) : LimitClass → RateLimitConfig
  | .connections => l.connections
  | .claims => l.claims
  | .injects => l.injects
  | .invalidMessages => l.invalidMessages

/-- Default limits, `rate-limit.ts` lines 4-25. -/
def DEFAULT_LIMITS : RateLimits :=
  { connections := { windowMs := 60000, maxRequests := 10, blockDurationMs := 300000 }
    claims := { windowMs := 60000, maxRequests := 5, blockDurationMs := 300000 }
    injects := { windowMs := 1000, maxRequests := 10, blockDurationMs := 60000 }
    invalidMessages := { windowMs := 60000, maxRequests := 3, blockDurationMs := 600000 } }

/-- Per-(peer, class) counter state (`RateLimitState`): the recorded
request timestamps and the optional block expiry (`undefined` ≡ `none`). -/
structure RateLimitState where
  requests : List Int
  blockedUntil : Option Int
  deriving DecidableEq, Repr

/-- The state `getState` creates on first use (`{ requests: [] }`). -/
def freshRLState : RateLimitState := { requests := [], blockedUntil := none }

/-- Tail of `RateLimiter.check` (`rate-limit.ts` lines 55-66) after the
block state has been resolved: timestamps outside the window are dropped,
then the call either blocks (`blockedUntil = now + blockDurationMs`,
returning false) or records `now` and returns true. -/
def rlCheckRun (cfg : RateLimitConfig) (now : Int) (requests : List Int) :
    Bool × RateLimitState :=
  if cfg.maxRequests ≤ (requests.filter fun ts => now - ts < cfg.windowMs).length then
    (false, { requests := requests.filter fun ts => now - ts < cfg.windowMs
              blockedUntil := some (now + cfg.blockDurationMs) })
  else
    (true, { requests := (requests.filter fun ts => now - ts < cfg.windowMs) ++ [now]
             blockedUntil := none })

/-- Dispatch on the block state: an unexpired block short-circuits, an
expired one is cleared together with the request list (lines 45-53). -/
def rlCheck (cfg : RateLimitConfig) (now : Int) (s : RateLimitState) :
    Bool × RateLimitState :=
  match s.blockedUntil with
  | some b =>
      if now < b then (false, s)
      else rlCheckRun cfg now []
  | none => rlCheckRun cfg now s.requests

/-- Rate limiter object: the configuration plus the per-peer, per-class
state map (two nested JS `Map`s, flattened to one association list keyed
by the pair). -/
structure RateLimiter where
  limits : RateLimits
  state : List ((String × LimitClass) × RateLimitState)
  deriving DecidableEq, Repr

/-- Lookup with on-demand creation (`getState`). -/
def RateLimiter.getState (rl : RateLimiter) (peerKey : String)
    (limitType : LimitClass) : RateLimitState :=
  match rl.state.find? (fun e => e.1 == (peerKey, limitType)) with
  | some e => e.2
  | none => freshRLState

/-- Store back one counter state (mutation of the nested `Map` entry). -/
def RateLimiter.setState (rl : RateLimiter) (peerKey : String)
    (limitType : LimitClass) (s : RateLimitState) : RateLimiter :=
  if rl.state.any (fun e => e.1 == (peerKey, limitType)) then
    { rl with
      state := updateFirst (fun e => e.1 == (peerKey, limitType))
        (fun e => (e.1, s)) rl.state }
  else
    { rl with state := rl.state ++ [((peerKey, limitType), s)] }

/-- Method `check(peerKey, limitType)` of the limiter. -/
def RateLimiter.check (rl : RateLimiter) (now : Int) (peerKey : String)
    (limitType : LimitClass) : Bool × RateLimiter :=
  let r := rlCheck (rl.limits.get limitType) now (rl.getState peerKey limitType)
  (r.1, rl.setState peerKey limitType r.2)

/-- Replay protector state: the `nonce → timestamp` map
(`seenNonces`), insertion ordered. -/
abbrev ReplayState := List (String × Int)

/-- Replay / skew gate `ReplayProtector.check`, `rate-limit.ts` lines
169-195, with defaults `maxAgeMs = 300000`, `maxClockSkewMs = 30000`
(lines 160-163), followed by the opportunistic `cleanup` of lines 200-209
once the map holds more than 10000 nonces. -/
def replayCheck (maxAgeMs maxClockSkewMs now : Int) (s : ReplayState)
    (nonce : String) (timestamp : Int) : Bool × ReplayState :=
  if timestamp < now - maxAgeMs then (false, s)
  else if now + maxClockSkewMs < timestamp then (false, s)
  else if s.any (fun e => e.1 == nonce) then (false, s)
  else
    let s' : ReplayState := s ++ [(nonce, timestamp)]
    let s'' : ReplayState :=
      if 10000 < s'.length then s'.filter (fun e => !(e.2 < now - maxAgeMs))
      else s'
    (true, s'')

/-- Modelled from the spec: protocol version constants live in
`types.ts`, which is not under `src/`; spec §4.5 fixes
`PROTOCOL_VERSION = 2`. -/
def PROTOCOL_VERSION : Int := 2

/-- Modelled from the spec: `MIN_PROTOCOL_VERSION = 1` (spec §4.5). -/
def MIN_PROTOCOL_VERSION : Int := 1

/-- Modelled from the spec: exit / result codes live in `types.ts`, which
is not under `src/`; spec §6 fixes OK = 0. -/
def EXIT_OK : Int := 0

/-- Modelled from the spec: Offline = 1 (spec §6). -/
def EXIT_OFFLINE : Int := 1

/-- Modelled from the spec: Rejected = 2 (spec §6). -/
def EXIT_REJECTED : Int := 2

/-- Modelled from the spec: Invalid = 3 (spec §6). -/
def EXIT_INVALID : Int := 3

/-- Modelled from the spec: RateLimited = 4 (spec §6). -/
def EXIT_RATE_LIMITED : Int := 4

/-- Modelled from the spec: VersionMismatch = 5 (spec §6). -/
def EXIT_VERSION_MISMATCH : Int := 5

/-- Frame type tags of the wire protocol (spec §4.5, `cli.ts`). -/
inductive MsgType where
  | hello
  | helloAck
  | claim
  | inject
  | keyRotation
  | ack
  | reject
  deriving DecidableEq, Repr

/-- Inbound wire frame (`P2PMessage`): the source uses one wide record
with many optional fields; `from_` renders the TS field `from`. -/
structure P2PMessage where
  v : Int
  type : MsgType
  from_ : String
  nonce : String
  ts : Int
  sig : String
  versions : Option (List Int)
  version : Option Int
  ephemeralPub : Option String
  token : Option String
  encryptPub : Option String
  session : Option String
  payload : Option String
  keyRotation : Option KeyRotation
  reason : Option String
  deriving DecidableEq, Repr

/-- Deterministic fields of a frame written by the responder; the fresh
`nonce`, `ts` and `sig` that `signMessage` adds are randomness/crypto and
are not modelled. -/
structure OutMsg where
  v : Int
  type : MsgType
  from_ : String
  version : Option Int
  ephemeralPub : Option String
  encryptPub : Option String
  session : Option String
  reason : Option String
  deriving DecidableEq, Repr

/-- Reply frame carrying only `v`, `type` and `from` (the key-rotation
and claim `ack`/`reject` shapes). -/
def mkOut (t : MsgType) (myPublicKey : String) : OutMsg :=
  { v := PROTOCOL_VERSION, type := t, from_ := myPublicKey,
    version := none, ephemeralPub := none, encryptPub := none,
    session := none, reason := none }

/-- Cryptographic and external-callback operations used by the pipeline,
abstracted as functions: they live in `identity.ts` / node crypto /
the daemon, outside the embedded modules. -/
structure CryptoOracle where
  verifySignature : P2PMessage → String → Bool
  decodeToken : String → Option InviteToken
  verifyTokenSig : InviteToken → Bool
  verifyKeyRotation : KeyRotation → Bool
  shortKey : String → String
  decryptEphemeral : String → String → Option String
  decryptStatic : String → String → Option String
  injectOk : String → String → String → Bool

/-- Modelled from the spec: `parseInviteToken` lives in `identity.ts`,
which is not under `src/`. Per spec §4.2 it structurally validates the
string, verifies `sig` under `iss`, and checks `exp > now`; it does not
check `sub`. Decoding and signature verification are the oracle's; the
error strings stand for the thrown messages. -/
def parseInviteTokenM (o : CryptoOracle) (now : Int) (s : String) :
    Except String InviteToken :=
  match o.decodeToken s with
  | none => .error "malformed token"
  | some t =>
      if !o.verifyTokenSig t then .error "invalid token signature"
      else if t.exp ≤ now then .error "token expired"
      else .ok t

/-- Per-connection responder state (`handleConnection` locals):
`ephemeralPub` is the public half of the keypair generated for this
connection. -/
structure ConnState where
  handshakeComplete : Bool
  negotiatedVersion : Option Int
  peerEphemeralPub : Option String
  ephemeralPub : String
  deriving DecidableEq, Repr

/-- Everything one pipeline step touches: connection state, the two
shared gates, the two trust stores, the frames written to the socket, and
the `onInject(session, plaintext, from)` invocations. -/
structure StepResult where
  conn : ConnState
  rl : RateLimiter
  replay : ReplayState
  grants : List AccessGrant
  peers : List Peer
  writes : List OutMsg
  injected : List (String × String × String)
  deriving DecidableEq, Repr

/-- Claim dispatch, `cli.ts` lines 2110-2184: rate gate, token parse
(failure replies `invalid token: …`), issuer check, subject check, then
`grantAccess` and an `ack` carrying our static encryption key. -/
def claimBranch (o : CryptoOracle) (myPublicKey myEncryptPub : String)
    (now : Int) (cs : ConnState) (rl : RateLimiter) (rp : ReplayState)
    (grants : List AccessGrant) (peers : List Peer) (msg : P2PMessage)
    (tok : String) : StepResult :=
  let c := rl.check now msg.from_ .claims
  if !c.1 then
    { conn := cs, rl := c.2, replay := rp, grants := grants, peers := peers,
      writes := [{ mkOut .reject myPublicKey with reason := some "rate limited" }],
      injected := [] }
  else
    match parseInviteTokenM o now tok with
    | .error e =>
        { conn := cs, rl := c.2, replay := rp, grants := grants, peers := peers,
          writes := [{ mkOut .reject myPublicKey with
                        reason := some ("invalid token: " ++ e) }],
          injected := [] }
    | .ok token =>
        if token.iss != myPublicKey then
          { conn := cs, rl := c.2, replay := rp, grants := grants, peers := peers,
            writes := [{ mkOut .reject myPublicKey with
                          reason := some "token not issued by this peer" }],
            injected := [] }
        else if token.sub != msg.from_ then
          { conn := cs, rl := c.2, replay := rp, grants := grants, peers := peers,
            writes := [{ mkOut .reject myPublicKey with
                          reason := some "token not issued for you" }],
            injected := [] }
        else
          { conn := cs, rl := c.2, replay := rp,
            grants := grantAccess grants now msg.from_ token.ses token.cap
              msg.encryptPub,
            peers := peers,
            writes := [{ mkOut .ack myPublicKey with
                          encryptPub := some myEncryptPub }],
            injected := [] }

/-- Inject dispatch, `cli.ts` lines 2187-2264: rate gate, authorization,
then decryption (ephemeral when `v ≥ 2` and the frame carries an
ephemeral key, else static via `getGrantForPeer`), the `onInject`
callback, and `ack`/`reject{"inject failed"}`. -/
def injectBranch (o : CryptoOracle) (myPublicKey : String) (now : Int)
    (cs : ConnState) (rl : RateLimiter) (rp : ReplayState)
    (grants : List AccessGrant) (peers : List Peer) (msg : P2PMessage)
    (sess payload : String) : StepResult :=
  let c := rl.check now msg.from_ .injects
  if !c.1 then
    { conn := cs, rl := c.2, replay := rp, grants := grants, peers := peers,
      writes := [{ mkOut .reject myPublicKey with
                    session := some sess, reason := some "rate limited" }],
      injected := [] }
  else if !isAuthorized grants now msg.from_ sess then
    { conn := cs, rl := c.2, replay := rp, grants := grants, peers := peers,
      writes := [{ mkOut .reject myPublicKey with
                    session := some sess, reason := some "unauthorized" }],
      injected := [] }
  else
    let decrypted :=
      if 2 ≤ msg.v && strTruthy msg.ephemeralPub then
        o.decryptEphemeral payload (msg.ephemeralPub.getD "")
      else
        match getGrantForPeer grants msg.from_ with
        | some grant =>
            if strTruthy grant.peerEncryptPub then
              o.decryptStatic payload (grant.peerEncryptPub.getD "")
            else none
        | none => none
    match decrypted with
    | none =>
        { conn := cs, rl := c.2, replay := rp, grants := grants, peers := peers,
          writes := [{ mkOut .reject myPublicKey with
                        session := some sess, reason := some "inject failed" }],
          injected := [] }
    | some plain =>
        if o.injectOk sess plain msg.from_ then
          { conn := cs, rl := c.2, replay := rp, grants := grants, peers := peers,
            writes := [{ mkOut .ack myPublicKey with session := some sess }],
            injected := [(sess, plain, msg.from_)] }
        else
          { conn := cs, rl := c.2, replay := rp, grants := grants, peers := peers,
            writes := [{ mkOut .reject myPublicKey with
                          session := some sess, reason := some "inject failed" }],
            injected := [(sess, plain, msg.from_)] }

/-- One step of the responder pipeline (`cli.ts` lines 2010-2265): the
handler applied to one complete line. `line = none` is a JSON parse
failure (caught and silently dropped, lines 2018-2022). Then, in source
order: the `hello` handshake branch; for non-hello/hello-ack frames the
key-rotation special case, signature verification and replay gate (each
failure charges `invalidMessages` and drops); finally the `claim` and
`inject` dispatches. A frame matching no branch is dropped silently. -/
def handleLine (o : CryptoOracle) (myPublicKey myEncryptPub : String)
    (now : Int) (cs : ConnState) (rl : RateLimiter) (rp : ReplayState)
    (grants : List AccessGrant) (peers : List Peer)
    (line : Option P2PMessage) : StepResult :=
  let keep : StepResult :=
    { conn := cs, rl := rl, replay := rp, grants := grants, peers := peers,
      writes := [], injected := [] }
  match line with
  | none => keep
  | some msg =>
    if msg.type == .hello && !cs.handshakeComplete then
      let common := (msg.versions.getD [1]).filter fun v =>
        MIN_PROTOCOL_VERSION ≤ v && v ≤ PROTOCOL_VERSION
      if common.isEmpty then
        { keep with
          writes := [{ mkOut .reject myPublicKey with
                        reason := some "no common protocol version" }] }
      else
        let negotiated := (common.max?).getD 0
        { keep with
          conn := { cs with
            handshakeComplete := true
            negotiatedVersion := some negotiated
            peerEphemeralPub := msg.ephemeralPub }
          writes := [{ mkOut .helloAck myPublicKey with
                        version := some negotiated
                        ephemeralPub := some cs.ephemeralPub }] }
    else if msg.type != .hello && msg.type != .helloAck then
      if msg.type == .keyRotation && msg.keyRotation.isSome then
        let rot := msg.keyRotation.getD
          { oldSignPub := "", newSignPub := "", newEncryptPub := "",
            reason := "", effectiveAt := 0, gracePeriodMs := 0, sig := "" }
        match processPeerKeyRotation o.verifyKeyRotation o.shortKey rot
          grants peers with
        | (ok, grants', peers') =>
          if ok then
            { keep with
              grants := grants'
              peers := peers'
              writes :=[mkOut .ack myPublicKey] }
          else
            { keep with
              grants := grants'
              peers := peers'
              writes :=[{ mkOut .reject myPublicKey with
                            reason := some "invalid key rotation" }] }
      else if !o.verifySignature msg msg.from_ then
        { keep with rl := (rl.check now msg.from_ .invalidMessages).2 }
      else
        let rc := replayCheck 300000 30000 now rp msg.nonce msg.ts
        if !rc.1 then
          { keep with rl := (rl.check now msg.from_ .invalidMessages).2 }
        else if msg.type == .claim && strTruthy msg.token then
          claimBranch o myPublicKey myEncryptPub now cs rl rc.2 grants peers
            msg (msg.token.getD "")
        else if msg.type == .inject && strTruthy msg.payload &&
            strTruthy msg.session then
          injectBranch o myPublicKey now cs rl rc.2 grants peers msg
            (msg.session.getD "") (msg.payload.getD "")
        else
          { keep with replay := rc.2 }
    else
      keep

/-- Outcome of the local prelude of `sendP2PInject`: either an early
typed result, or the point at which the transport is opened
(`swarm.join` on the peer's topic, `cli.ts` lines 1655-1656) with the
peer record in hand. -/
inductive InjectStart where
  | early (code : Int) (message : String)
  | openTransport (peer : Peer)
  deriving DecidableEq, Repr

/-- Local prelude of `sendP2PInject`, `cli.ts` lines 1631-1656, up to the
first transport operation: identity presence, peer lookup, the session
gate, then the encryption-key gate (in this source order). `identity`
is the own signing key when one exists; the message body plays no role
before the transport opens and is omitted. -/
def sendP2PInject (identity : Option String) (peers : List Peer)
    (peerIdOrName session : String) : InjectStart :=
  match identity with
  | none => .early EXIT_INVALID "No identity"
  | some _ =>
    match findPeer peers peerIdOrName with
    | none => .early EXIT_INVALID ("Peer not found: " ++ peerIdOrName)
    | some peer =>
      if !peer.sessions.contains "*" && !peer.sessions.contains session then
        .early EXIT_REJECTED ("No access to session \x22" ++ session ++ "\x22")
      else if !strTruthy peer.encryptPub then
        .early EXIT_INVALID "Peer has no encryption key (claim token first)"
      else
        .openTransport peer

/-! Theorems. -/

/-- Disjunction of two scans of the same list is one scan of the
disjunction. -/
theorem any_or_any (l : List α) (p q : α → Bool) :
    (l.any p || l.any q) = l.any (fun x => p x || q x) := by
  induction l with
  | nil => simp
  | cons a t ih =>
      simp only [List.any_cons, ← ih]
      cases p a <;> cases q a <;> simp

/-- Per-grant reading of the two scans of `isAuthorized`, with the JS
truthiness of `validUntil` discharged by `0 ≤ now`. -/
theorem grantScan_iff (now : Int) (hnow : 0 ≤ now) (k s : String)
    (g : AccessGrant) :
    ((!g.revoked && g.peerKey == k &&
        (g.sessions.contains "*" || g.sessions.contains s) &&
        g.caps.contains "inject") ||
      (!g.revoked &&
        (g.sessions.contains "*" || g.sessions.contains s) &&
        g.caps.contains "inject" &&
        g.keyHistory.any fun h =>
          h.publicKey == k && h.validUntil != 0 && now < h.validUntil)) = true
      ↔ (g.revoked = false ∧ "inject" ∈ g.caps ∧
          ("*" ∈ g.sessions ∨ s ∈ g.sessions) ∧
          (g.peerKey = k ∨
            ∃ h ∈ g.keyHistory, h.publicKey = k ∧ now < h.validUntil)) := by
  simp only [Bool.or_eq_true, Bool.and_eq_true, Bool.not_eq_true',
    beq_iff_eq, bne_iff_ne, List.any_eq_true, List.elem_iff,
    decide_eq_true_eq]
  constructor
  · rintro (⟨⟨⟨hrev, hkey⟩, hses⟩, hcap⟩ |
        ⟨⟨⟨hrev, hses⟩, hcap⟩, h, hh, ⟨hk, _⟩, hlt⟩)
    · exact ⟨hrev, hcap, hses, Or.inl hkey⟩
    · exact ⟨hrev, hcap, hses, Or.inr ⟨h, hh, hk, hlt⟩⟩
  · rintro ⟨hrev, hcap, hses, hkey | ⟨h, hh, hk, hlt⟩⟩
    · exact Or.inl ⟨⟨⟨hrev, hkey⟩, hses⟩, hcap⟩
    · exact Or.inr ⟨⟨⟨hrev, hses⟩, hcap⟩, h, hh, ⟨hk, by omega⟩, hlt⟩

/-- C2: `isAuthorized(k, s)` is true iff some non-revoked grant carries
the `inject` capability, covers the session (`"*"` or the name), and
matches the sender key either as its current `peerKey` or through a
`keyHistory` entry still inside its grace period (`now < validUntil`);
in particular a revoked grant never authorizes. -/
theorem c2_isAuthorized_spec (grants : List AccessGrant) (now : Int)
    (k s : String) (hnow : 0 ≤ now) :
    isAuthorized grants now k s = true ↔
      ∃ g ∈ grants, g.revoked = false ∧ "inject" ∈ g.caps ∧
        ("*" ∈ g.sessions ∨ s ∈ g.sessions) ∧
        (g.peerKey = k ∨
          ∃ h ∈ g.keyHistory, h.publicKey = k ∧ now < h.validUntil) := by
  have hsplit : isAuthorized grants now k s =
      ((grants.any fun g =>
        !g.revoked && g.peerKey == k &&
        (g.sessions.contains "*" || g.sessions.contains s) &&
        g.caps.contains "inject") ||
      (grants.any fun g =>
        !g.revoked &&
        (g.sessions.contains "*" || g.sessions.contains s) &&
        g.caps.contains "inject" &&
        g.keyHistory.any fun h =>
          h.publicKey == k && h.validUntil != 0 && now < h.validUntil)) := by
    simp only [isAuthorized, Bool.if_true_left, Bool.decide_coe]
  rw [hsplit, any_or_any, List.any_eq_true]
  exact exists_congr fun g => and_congr_right fun _ => grantScan_iff now hnow k s g

/-- One concrete grant used by witnesses. -/
def gB : AccessGrant :=
  { id := "grant-1", peerKey := "B", peerEncryptPub := some "Benc",
    sessions := ["dev"], caps := ["inject"], created := 0,
    revoked := false, peerName := none, keyHistory := [] }

/-- Witness for C2 at a one-grant store. -/
theorem c2_isAuthorized_spec_witness :
    (0 : Int) ≤ 5 ∧
      (isAuthorized [gB] 5 "B" "dev" = true ↔
        ∃ g ∈ [gB], g.revoked = false ∧ "inject" ∈ g.caps ∧
          ("*" ∈ g.sessions ∨ "dev" ∈ g.sessions) ∧
          (g.peerKey = "B" ∨
            ∃ h ∈ g.keyHistory, h.publicKey = "B" ∧ (5 : Int) < h.validUntil)) :=
  ⟨by norm_num, c2_isAuthorized_spec [gB] 5 "B" "dev" (by norm_num)⟩

/-- After an accepted check, the nonce is recorded in the resulting map:
the fresh entry survives the opportunistic cleanup because its timestamp
passed the age test. -/
theorem replayCheck_mem_of_accept (maxAge maxSkew now : Int)
    (s : ReplayState) (n : String) (ts : Int)
    (h : (replayCheck maxAge maxSkew now s n ts).1 = true) :
    ((replayCheck maxAge maxSkew now s n ts).2.any fun e => e.1 == n) = true := by
  unfold replayCheck at h ⊢
  split_ifs at h ⊢ with h1 h2 h3
  by_cases hlen : 10000 < (s ++ [(n, ts)]).length
  · simp only [hlen, if_true, List.any_eq_true, List.mem_filter]
    exact ⟨(n, ts), ⟨by simp, by simpa using h1⟩, by simp⟩
  · have hlen' : ¬10000 < List.length s + 1 := by simpa using hlen
    simp [hlen']

/-- A nonce already present in the map is always rejected. -/
theorem replayCheck_false_of_mem (maxAge maxSkew now : Int)
    (s : ReplayState) (n : String) (ts : Int)
    (h : (s.any fun e => e.1 == n) = true) :
    (replayCheck maxAge maxSkew now s n ts).1 = false := by
  unfold replayCheck
  split_ifs <;> simp_all

/-- C3: `check(n, ts)` returns false exactly when the timestamp is older
than `now - maxAge`, newer than `now + maxSkew`, or the nonce is already
recorded; otherwise it records the nonce and returns true, so a nonce
accepted once is rejected on any second presentation (in particular at a
timestamp inside the acceptance window). -/
theorem c3_replayCheck_spec (maxAge maxSkew now : Int) (s : ReplayState)
    (n : String) (ts : Int) :
    ((replayCheck maxAge maxSkew now s n ts).1 = false ↔
      ts < now - maxAge ∨ now + maxSkew < ts ∨
        (s.any fun e => e.1 == n) = true)
    ∧ ((replayCheck maxAge maxSkew now s n ts).1 = true →
        ∀ now2 ts2,
          (replayCheck maxAge maxSkew now2
            (replayCheck maxAge maxSkew now s n ts).2 n ts2).1 = false) := by
  constructor
  · unfold replayCheck
    split_ifs with h1 h2 h3 <;> simp_all
  · intro h now2 ts2
    exact replayCheck_false_of_mem _ _ _ _ _ _
      (replayCheck_mem_of_accept _ _ _ _ _ _ h)

/-- Witness for C3 with the default 5-minute age and 30-second skew: a
fresh nonce is accepted, and its immediate replay at the same in-window
timestamp is rejected. -/
theorem c3_replayCheck_spec_witness :
    (replayCheck 300000 30000 1000000 ([] : ReplayState) "n1" 1000000).1 = true
    ∧ (replayCheck 300000 30000 1000000
        (replayCheck 300000 30000 1000000 ([] : ReplayState) "n1" 1000000).2
        "n1" 1000000).1 = false :=
  ⟨by decide,
   (c3_replayCheck_spec 300000 30000 1000000 [] "n1" 1000000).2 (by decide)
     1000000 1000000⟩

/-- Invariant of a limiter counter state at time `now`: recorded
timestamps lie in the past, and when a block is set the timestamps were
recorded at least `blockDurationMs` before it expires. Every state the
limiter reaches through `check` from the fresh state satisfies it
(`rlInv_fresh`, `rlCheck_preserves_inv`). -/
def RLInv (cfg : RateLimitConfig) (now : Int) (s : RateLimitState) : Prop :=
  (∀ ts ∈ s.requests, ts ≤ now) ∧
  ∀ b, s.blockedUntil = some b → ∀ ts ∈ s.requests, ts + cfg.blockDurationMs ≤ b

/-- The fresh counter state satisfies the invariant. -/
theorem rlInv_fresh (cfg : RateLimitConfig) (now : Int) :
    RLInv cfg now freshRLState := by
  simp [RLInv, freshRLState]

/-- Unfolding equation of `rlCheck` when a block value is stored. -/
theorem rlCheck_some (cfg : RateLimitConfig) (now : Int)
    (s : RateLimitState) (b : Int) (hb : s.blockedUntil = some b) :
    rlCheck cfg now s =
      if now < b then (false, s) else rlCheckRun cfg now [] := by
  unfold rlCheck
  rw [hb]

/-- Unfolding equation of `rlCheck` when no block is stored. -/
theorem rlCheck_none (cfg : RateLimitConfig) (now : Int)
    (s : RateLimitState) (hb : s.blockedUntil = none) :
    rlCheck cfg now s = rlCheckRun cfg now s.requests := by
  unfold rlCheck
  rw [hb]

/-- The tail of a check yields a state satisfying the invariant at any
later time. -/
theorem rlCheckRun_inv (cfg : RateLimitConfig) (now now' : Int)
    (requests : List Int) (hreq : ∀ ts ∈ requests, ts ≤ now)
    (hle : now ≤ now') : RLInv cfg now' (rlCheckRun cfg now requests).2 := by
  unfold rlCheckRun
  split
  · refine ⟨fun ts hts => ?_, fun b hb ts hts => ?_⟩
    · have := hreq ts (List.mem_of_mem_filter hts)
      omega
    · have := hreq ts (List.mem_of_mem_filter hts)
      simp only [Option.some.injEq] at hb
      omega
  · refine ⟨fun ts hts => ?_, fun b hb ts hts => by simp_all⟩
    rcases List.mem_append.1 hts with hts | hts
    · have := hreq ts (List.mem_of_mem_filter hts)
      omega
    · simp only [List.mem_singleton] at hts
      omega

/-- Checks preserve the invariant at any later time. -/
theorem rlCheck_preserves_inv (cfg : RateLimitConfig) (now now' : Int)
    (s : RateLimitState) (hinv : RLInv cfg now s) (hle : now ≤ now') :
    RLInv cfg now' (rlCheck cfg now s).2 := by
  cases hs : s.blockedUntil with
  | none =>
      rw [rlCheck_none cfg now s hs]
      exact rlCheckRun_inv cfg now now' s.requests hinv.1 hle
  | some b =>
      rw [rlCheck_some cfg now s b hs]
      by_cases hlt : now < b
      · rw [if_pos hlt]
        exact ⟨fun ts hts => le_trans (hinv.1 ts hts) hle,
          fun b' hb' ts hts => hinv.2 b' hb' ts hts⟩
      · rw [if_neg hlt]
        exact rlCheckRun_inv cfg now now' [] (by simp) hle

/-- C4: semantics of one `check(p, c)` call. While a block is active the
call returns false and mutates nothing; otherwise timestamps older than
the class window are dropped, and the call either blocks
(`blockedUntil = now + blockDurationMs`, returning false) when the
remaining count reaches `maxRequests`, or records `now` and returns
true. Stated on states satisfying the limiter invariant, for classes
with `windowMs ≤ blockDurationMs` (true of all four shipped classes). -/
theorem c4_rlCheck_spec (cfg : RateLimitConfig) (now : Int)
    (s : RateLimitState) (hw : cfg.windowMs ≤ cfg.blockDurationMs)
    (hinv : RLInv cfg now s) :
    (∀ b, s.blockedUntil = some b → now < b → rlCheck cfg now s = (false, s))
    ∧ ((∀ b, s.blockedUntil = some b → b ≤ now) →
        (cfg.maxRequests ≤
            (s.requests.filter fun ts => now - ts < cfg.windowMs).length →
          rlCheck cfg now s =
            (false,
              { requests := s.requests.filter fun ts => now - ts < cfg.windowMs
                blockedUntil := some (now + cfg.blockDurationMs) }))
        ∧ ((s.requests.filter fun ts => now - ts < cfg.windowMs).length <
              cfg.maxRequests →
            rlCheck cfg now s =
              (true,
                { requests :=
                    (s.requests.filter fun ts => now - ts < cfg.windowMs) ++ [now]
                  blockedUntil := none }))) := by
  constructor
  · intro b hb hlt
    rw [rlCheck_some cfg now s b hb, if_pos hlt]
  · intro hexp
    cases hs : s.blockedUntil with
    | none =>
        rw [rlCheck_none cfg now s hs]
        unfold rlCheckRun
        constructor
        · intro hlen
          rw [if_pos hlen]
        · intro hlen
          rw [if_neg (by omega)]
    | some b =>
        have hble : b ≤ now := hexp b hs
        have hfe : s.requests.filter (fun ts => now - ts < cfg.windowMs) = [] := by
          rw [List.filter_eq_nil_iff]
          intro ts hts
          have h1 := hinv.1 ts hts
          have h2 := hinv.2 b hs ts hts
          simp only [decide_eq_true_eq]
          omega
        rw [rlCheck_some cfg now s b hs, if_neg (by omega)]
        unfold rlCheckRun
        rw [hfe]
        constructor
        · intro hlen
          rw [List.filter_nil, if_pos hlen]
        · intro hlen
          rw [List.filter_nil, if_neg (by omega)]

/-- Witness for C4 on the `injects` class at the fresh state. -/
theorem c4_rlCheck_spec_witness :
    DEFAULT_LIMITS.injects.windowMs ≤ DEFAULT_LIMITS.injects.blockDurationMs
    ∧ RLInv DEFAULT_LIMITS.injects 7 freshRLState
    ∧ ((∀ b, freshRLState.blockedUntil = some b → (7 : Int) < b →
          rlCheck DEFAULT_LIMITS.injects 7 freshRLState = (false, freshRLState))
      ∧ ((∀ b, freshRLState.blockedUntil = some b → b ≤ (7 : Int)) →
          (DEFAULT_LIMITS.injects.maxRequests ≤
              (freshRLState.requests.filter fun ts =>
                7 - ts < DEFAULT_LIMITS.injects.windowMs).length →
            rlCheck DEFAULT_LIMITS.injects 7 freshRLState =
              (false,
                { requests := freshRLState.requests.filter fun ts =>
                    7 - ts < DEFAULT_LIMITS.injects.windowMs
                  blockedUntil := some (7 + DEFAULT_LIMITS.injects.blockDurationMs) }))
          ∧ ((freshRLState.requests.filter fun ts =>
                7 - ts < DEFAULT_LIMITS.injects.windowMs).length <
                DEFAULT_LIMITS.injects.maxRequests →
              rlCheck DEFAULT_LIMITS.injects 7 freshRLState =
                (true,
                  { requests := (freshRLState.requests.filter fun ts =>
                      7 - ts < DEFAULT_LIMITS.injects.windowMs) ++ [7]
                    blockedUntil := none })))) :=
  ⟨by decide, rlInv_fresh _ 7,
    c4_rlCheck_spec DEFAULT_LIMITS.injects 7 freshRLState (by decide)
      (rlInv_fresh _ 7)⟩

/-- A sequence of checks at the given times (`Date.now()` values), in
order, returning the list of results and the final counter state. -/
def runChecks (cfg : RateLimitConfig) (times : List Int)
    (s : RateLimitState) : List Bool × RateLimitState :=
  match times with
  | [] => ([], s)
  | t :: rest =>
      let r := rlCheck cfg t s
      let r' := runChecks cfg rest r.2
      (r.1 :: r'.1, r'.2)

/-- An active block makes a check a no-op returning false. -/
theorem rlCheck_blocked (cfg : RateLimitConfig) (now : Int)
    (s : RateLimitState) (B : Int) (hb : s.blockedUntil = some B)
    (hlt : now < B) : rlCheck cfg now s = (false, s) := by
  unfold rlCheck
  rw [hb]
  simp [hlt]

/-- C5: once a `check(p, c)` call returns false with `blockedUntil = B`,
every further call made while `now < B` returns false and leaves the
whole counter state — in particular `blockedUntil = B` — unchanged. -/
theorem c5_block_monotone (cfg : RateLimitConfig) (now : Int)
    (s : RateLimitState) (B : Int)
    (hfalse : (rlCheck cfg now s).1 = false)
    (hB : (rlCheck cfg now s).2.blockedUntil = some B)
    (times : List Int) (htimes : ∀ t ∈ times, t < B) :
    runChecks cfg times (rlCheck cfg now s).2 =
      (times.map fun _ => false, (rlCheck cfg now s).2) := by
  generalize hgen : (rlCheck cfg now s).2 = s1 at hB ⊢
  clear hfalse hgen
  induction times with
  | nil => simp [runChecks]
  | cons t rest ih =>
      have hstep := rlCheck_blocked cfg t s1 B hB (htimes t (by simp))
      simp [runChecks, hstep, ih fun t' ht' => htimes t' (by simp [ht'])]

/-- Witness for C5: three timestamps at 0 fill the `invalidMessages`
window; the fourth check blocks until 600000, and checks at times 1, 2, 3
all return false without touching the state. -/
theorem c5_block_monotone_witness :
    (rlCheck DEFAULT_LIMITS.invalidMessages 0
        { requests := [0, 0, 0], blockedUntil := none }).1 = false
    ∧ (rlCheck DEFAULT_LIMITS.invalidMessages 0
        { requests := [0, 0, 0], blockedUntil := none }).2.blockedUntil =
        some 600000
    ∧ runChecks DEFAULT_LIMITS.invalidMessages [1, 2, 3]
        (rlCheck DEFAULT_LIMITS.invalidMessages 0
          { requests := [0, 0, 0], blockedUntil := none }).2 =
        ([false, false, false],
          (rlCheck DEFAULT_LIMITS.invalidMessages 0
            { requests := [0, 0, 0], blockedUntil := none }).2) :=
  ⟨by decide, by decide,
    by
      have h := c5_block_monotone DEFAULT_LIMITS.invalidMessages 0
        { requests := [0, 0, 0], blockedUntil := none } 600000 (by decide)
        (by decide) [1, 2, 3] (by decide)
      simpa using h⟩

/-- If at most one element matches and the update destroys the match,
no element of the updated list matches. -/
theorem updateFirst_not_any (p : α → Bool) (f : α → α) (l : List α)
    (hcount : l.countP p ≤ 1) (hf : ∀ x, p x = true → p (f x) = false) :
    (updateFirst p f l).any p = false := by
  induction l with
  | nil => rfl
  | cons a t ih =>
      by_cases ha : p a = true
      · have hz : t.countP p = 0 := by
          rw [List.countP_cons_of_pos _ _ ha] at hcount
          omega
        have hnone : t.any p = false := by
          rw [List.any_eq_false]
          intro x hx
          simpa using (List.countP_eq_zero.1 hz) x hx
        simp [updateFirst, ha, hf a ha, hnone]
      · have ha' : p a = false := by simpa using ha
        have : t.countP p ≤ 1 := by
          rw [List.countP_cons_of_neg _ _ (by simp [ha'])] at hcount
          exact hcount
        simp [updateFirst, ha', ih this]

/-- Under the same hypotheses, the guarded first-match update is stable
on second application. -/
theorem applyFirstIfAny_stable (p : α → Bool) (f : α → α) (l : List α)
    (hcount : l.countP p ≤ 1) (hf : ∀ x, p x = true → p (f x) = false) :
    applyFirstIfAny p f (applyFirstIfAny p f l) = applyFirstIfAny p f l := by
  unfold applyFirstIfAny
  by_cases h : l.any p = true
  · rw [if_pos h, if_neg (by rw [updateFirst_not_any p f l hcount hf]; simp)]
  · rw [if_neg h, if_neg h]

/-- One concrete grant for the peer key `k`, used in rotation scenarios. -/
def gK : AccessGrant :=
  { id := "g0", peerKey := "k", peerEncryptPub := some "ke",
    sessions := ["dev"], caps := ["inject"], created := 0,
    revoked := false, peerName := none, keyHistory := [] }

/-- A degenerate but validly-signable rotation whose new key equals the
old one. -/
def rotSelf : KeyRotation :=
  { oldSignPub := "k", newSignPub := "k", newEncryptPub := "e2",
    reason := "self", effectiveAt := 10, gracePeriodMs := 100, sig := "s" }

/-- C6 counterexample: for the rotation `rotSelf` (old = new key, valid
signature) over a store with one grant for that key, the second
processing appends a second history entry, so the grants after two calls
differ from the grants after one. -/
theorem c6_counterexample :
    (processPeerKeyRotation (fun _ => true) (fun s => s) rotSelf
        (processPeerKeyRotation (fun _ => true) (fun s => s) rotSelf
          [gK] []).2.1
        (processPeerKeyRotation (fun _ => true) (fun s => s) rotSelf
          [gK] []).2.2).2.1 ≠
      (processPeerKeyRotation (fun _ => true) (fun s => s) rotSelf
        [gK] []).2.1 := by
  decide

/-- C6 amended: processing the same `KeyRotation` twice yields the same
final grants and peers as processing it once, provided the rotation
actually changes the key (`newSignPub ≠ oldSignPub`) and the stores
satisfy the data-model invariant of at most one non-revoked grant per
`peerKey` and at most one peer per `publicKey`. -/
theorem c6_rotation_idempotent (verifyKR : KeyRotation → Bool)
    (sk : String → String) (rot : KeyRotation)
    (grants : List AccessGrant) (peers : List Peer)
    (hnew : rot.newSignPub ≠ rot.oldSignPub)
    (hg : (grants.countP fun g =>
        g.peerKey == rot.oldSignPub && !g.revoked) ≤ 1)
    (hp : (peers.countP fun p => p.publicKey == rot.oldSignPub) ≤ 1) :
    (processPeerKeyRotation verifyKR sk rot
        (processPeerKeyRotation verifyKR sk rot grants peers).2.1
        (processPeerKeyRotation verifyKR sk rot grants peers).2.2).2 =
      (processPeerKeyRotation verifyKR sk rot grants peers).2 := by
  by_cases hv : verifyKR rot = true
  · simp only [processPeerKeyRotation, hv, Bool.not_true, Bool.false_eq_true,
      if_false]
    refine Prod.ext ?_ ?_
    · exact applyFirstIfAny_stable _ _ grants hg fun g hpg => by
        simp only [rotateGrant, Bool.and_eq_true, beq_iff_eq] at hpg ⊢
        simp [hnew]
    · exact applyFirstIfAny_stable _ _ peers hp fun p hpp => by
        simp only [rotatePeer, beq_iff_eq] at hpp ⊢
        simp [hnew]
  · have hv' : verifyKR rot = false := by simpa using hv
    simp [processPeerKeyRotation, hv']

/-- An honest rotation of `k` to a fresh key `k2`. -/
def rotFresh : KeyRotation :=
  { oldSignPub := "k", newSignPub := "k2", newEncryptPub := "e2",
    reason := "rotate", effectiveAt := 10, gracePeriodMs := 100, sig := "s" }

/-- Witness for C6 amended on a one-grant store. -/
theorem c6_rotation_idempotent_witness :
    rotFresh.newSignPub ≠ rotFresh.oldSignPub
    ∧ ([gK].countP fun g =>
        g.peerKey == rotFresh.oldSignPub && !g.revoked) ≤ 1
    ∧ (([] : List Peer).countP fun p =>
        p.publicKey == rotFresh.oldSignPub) ≤ 1
    ∧ (processPeerKeyRotation (fun _ => true) (fun s => s) rotFresh
        (processPeerKeyRotation (fun _ => true) (fun s => s) rotFresh
          [gK] []).2.1
        (processPeerKeyRotation (fun _ => true) (fun s => s) rotFresh
          [gK] []).2.2).2 =
      (processPeerKeyRotation (fun _ => true) (fun s => s) rotFresh
        [gK] []).2 :=
  ⟨by decide, by decide, by decide,
    c6_rotation_idempotent (fun _ => true) (fun s => s) rotFresh [gK] []
      (by decide) (by decide) (by decide)⟩

/-- A grant whose current key is `new` and whose history holds the key
`old` with `validUntil = 5` (long expired at `now = 100`). -/
def gRot : AccessGrant :=
  { id := "g1", peerKey := "new", peerEncryptPub := some "ne",
    sessions := ["dev"], caps := ["inject"], created := 0,
    revoked := false, peerName := none,
    keyHistory := [{ publicKey := "old", encryptPub := "oe",
                     validFrom := 0, validUntil := 5,
                     rotationReason := "r" }] }

/-- C8 counterexample: `getGrantForPeer` still returns the grant for a
historical key whose grace period has long expired — the history scan of
`trust.ts` lines 80-87 never consults `validUntil`, so the claimed
`now < h.validUntil` condition is not enforced (at `now = 100` every
history entry of `gRot` is expired, and `gRot.peerKey` differs, yet the
grant is returned). -/
theorem c8_counterexample :
    getGrantForPeer [gRot] "old" = some gRot
    ∧ gRot.peerKey ≠ "old"
    ∧ ∀ h ∈ gRot.keyHistory, ¬((100 : Int) < h.validUntil) := by
  decide

/-- C8 amended: `getGrantForPeer(k)` searches the non-revoked grants
like `isAuthorized` but ignores the grace period (and session/caps): it
returns a grant iff some non-revoked grant has `peerKey = k` or any
`keyHistory` entry with `publicKey = k`, regardless of `validUntil`; the
returned grant is such a grant. -/
theorem c8_getGrantForPeer_spec (grants : List AccessGrant) (k : String) :
    ((getGrantForPeer grants k).isSome = true ↔
      ∃ g ∈ grants, g.revoked = false ∧
        (g.peerKey = k ∨ ∃ h ∈ g.keyHistory, h.publicKey = k))
    ∧ ∀ g, getGrantForPeer grants k = some g →
        g ∈ grants ∧ g.revoked = false ∧
          (g.peerKey = k ∨ ∃ h ∈ g.keyHistory, h.publicKey = k) := by
  unfold getGrantForPeer
  cases h1 : grants.find? (fun g => !g.revoked && g.peerKey == k) with
  | some g =>
      have hmem := List.mem_of_find?_eq_some h1
      have hpred := List.find?_some h1
      simp only [Bool.and_eq_true, Bool.not_eq_true', beq_iff_eq] at hpred
      constructor
      · simp only [Option.isSome_some, true_iff]
        exact ⟨g, hmem, hpred.1, Or.inl hpred.2⟩
      · rintro g' hg'
        injection hg' with he
        subst he
        exact ⟨hmem, hpred.1, Or.inl hpred.2⟩
  | none =>
      cases h2 : grants.find? (fun g =>
          !g.revoked && g.keyHistory.any fun h => h.publicKey == k) with
      | some g =>
          have hmem := List.mem_of_find?_eq_some h2
          have hpred := List.find?_some h2
          simp only [Bool.and_eq_true, Bool.not_eq_true', List.any_eq_true,
            beq_iff_eq] at hpred
          obtain ⟨hrev, h, hh, hpk⟩ := hpred
          constructor
          · simp only [Option.isSome_some, true_iff]
            exact ⟨g, hmem, hrev, Or.inr ⟨h, hh, hpk⟩⟩
          · rintro g' hg'
            injection hg' with he
            subst he
            exact ⟨hmem, hrev, Or.inr ⟨h, hh, hpk⟩⟩
      | none =>
          have hn1 := List.find?_eq_none.1 h1
          have hn2 := List.find?_eq_none.1 h2
          constructor
          · simp only [Option.isSome_none, Bool.false_eq_true, false_iff]
            rintro ⟨g, hg, hrev, hk | ⟨h, hh, hpk⟩⟩
            · exact absurd (by simp [hrev, hk] :
                  (!g.revoked && g.peerKey == k) = true)
                (by simpa using hn1 g hg)
            · refine absurd (?_ :
                  (!g.revoked &&
                    g.keyHistory.any fun h => h.publicKey == k) = true)
                (by simpa using hn2 g hg)
              simp only [Bool.and_eq_true, Bool.not_eq_true', List.any_eq_true]
              exact ⟨hrev, h, hh, by simp [hpk]⟩
          · rintro g' hg'
            exact Option.noConfusion hg'

/-- Witness for C8 amended at the `gRot` store. -/
theorem c8_getGrantForPeer_spec_witness :
    ((getGrantForPeer [gRot] "old").isSome = true ↔
      ∃ g ∈ [gRot], g.revoked = false ∧
        (g.peerKey = "old" ∨ ∃ h ∈ g.keyHistory, h.publicKey = "old"))
    ∧ ∀ g, getGrantForPeer [gRot] "old" = some g →
        g ∈ [gRot] ∧ g.revoked = false ∧
          (g.peerKey = "old" ∨ ∃ h ∈ g.keyHistory, h.publicKey = "old") :=
  c8_getGrantForPeer_spec [gRot] "old"

/-- A peer record with no encryption key, granting only `dev`. -/
def peerNoKey : Peer :=
  { id := "p1", name := none, publicKey := "A", encryptPub := none,
    sessions := ["dev"], caps := ["inject"], added := 0, keyHistory := [] }

/-- C9 counterexample: for a matched peer that has no `encryptPub` and no
access to the requested session, the claim requires `Invalid` (code 3),
but the source checks the session first (`cli.ts` line 1647 before line
1651) and returns `Rejected` (code 2). -/
theorem c9_counterexample :
    peerNoKey.encryptPub = none
    ∧ sendP2PInject (some "me") [peerNoKey] "p1" "prod" =
        .early EXIT_REJECTED ("No access to session \x22prod\x22")
    ∧ EXIT_REJECTED ≠ EXIT_INVALID := by
  decide

/-- C9 amended: an unknown peer yields `Invalid`; a session outside the
peer's list (with no `"*"`) yields `Rejected` even when the encryption
key is also missing; a missing encryption key with an allowed session
yields `Invalid` — and each of these is an `early` result, produced
before any transport connection is opened. -/
theorem c9_sendInject_early (identity : String) (peers : List Peer)
    (pid sess : String) :
    (findPeer peers pid = none →
      sendP2PInject (some identity) peers pid sess =
        .early EXIT_INVALID ("Peer not found: " ++ pid))
    ∧ (∀ peer, findPeer peers pid = some peer →
        peer.sessions.contains "*" = false →
        peer.sessions.contains sess = false →
        sendP2PInject (some identity) peers pid sess =
          .early EXIT_REJECTED ("No access to session \x22" ++ sess ++ "\x22"))
    ∧ (∀ peer, findPeer peers pid = some peer →
        (peer.sessions.contains "*" = true ∨
          peer.sessions.contains sess = true) →
        strTruthy peer.encryptPub = false →
        sendP2PInject (some identity) peers pid sess =
          .early EXIT_INVALID "Peer has no encryption key (claim token first)") := by
  refine ⟨fun hf => ?_, fun peer hf h1 h2 => ?_, fun peer hf hses henc => ?_⟩
  · simp only [sendP2PInject, hf]
  · simp only [sendP2PInject, hf]
    rw [if_pos (by rw [h1, h2]; rfl)]
  · simp only [sendP2PInject, hf]
    have hcond : (!peer.sessions.contains "*" &&
        !peer.sessions.contains sess) = false := by
      rcases hses with h | h <;> rw [h] <;> simp
    rw [if_neg (by rw [hcond]; simp), if_pos (by rw [henc]; rfl)]

/-- Witness for C9 amended: the `Rejected` session gate fires for
`peerNoKey` on session `prod`. -/
theorem c9_sendInject_early_witness :
    findPeer [peerNoKey] "p1" = some peerNoKey
    ∧ peerNoKey.sessions.contains "*" = false
    ∧ peerNoKey.sessions.contains "prod" = false
    ∧ sendP2PInject (some "me") [peerNoKey] "p1" "prod" =
        .early EXIT_REJECTED ("No access to session \x22" ++ "prod" ++ "\x22") :=
  ⟨by decide, by decide, by decide,
    (c9_sendInject_early "me" [peerNoKey] "p1" "prod").2.1 peerNoKey
      (by decide) (by decide) (by decide)⟩

/-- C10: revocation is not permanent. On any store where every grant for
`p` is revoked — the state `revokePeer` leaves behind —
`grantAccess(p, sessions, caps, enc)` ignores the revoked grants (it
searches only non-revoked ones, `trust.ts` line 224) and appends a fresh
grant with `revoked` unset, after which `isAuthorized(p, s)` is true for
every granted session (given the `inject` capability), at any time. -/
theorem c10_regrant_after_revoke (grants : List AccessGrant) (p : String)
    (sessions caps : List String) (enc : Option String) (now : Int)
    (s : String)
    (hrev : ∀ g ∈ grants, g.peerKey = p → g.revoked = true)
    (hcap : "inject" ∈ caps)
    (hses : "*" ∈ sessions ∨ s ∈ sessions) :
    grantAccess grants now p sessions caps enc =
      grants ++ [freshGrant now p sessions caps enc]
    ∧ ∀ now2,
        isAuthorized (grantAccess grants now p sessions caps enc) now2 p s =
          true := by
  have hany : (grants.any fun g => g.peerKey == p && !g.revoked) = false := by
    rw [List.any_eq_false]
    intro g hg
    simp only [Bool.and_eq_true, beq_iff_eq, Bool.not_eq_true']
    rintro ⟨h1, h2⟩
    rw [hrev g hg h1] at h2
    exact Bool.noConfusion h2
  have heq : grantAccess grants now p sessions caps enc =
      grants ++ [freshGrant now p sessions caps enc] := by
    unfold grantAccess
    rw [if_neg (by rw [hany]; simp)]
  refine ⟨heq, fun now2 => ?_⟩
  rw [heq]
  have hcur : ((grants ++ [freshGrant now p sessions caps enc]).any fun g =>
      !g.revoked && g.peerKey == p &&
      (g.sessions.contains "*" || g.sessions.contains s) &&
      g.caps.contains "inject") = true := by
    rw [List.any_eq_true]
    refine ⟨freshGrant now p sessions caps enc,
      List.mem_append_right _ (List.mem_singleton.2 rfl), ?_⟩
    rcases hses with h | h <;> simp [freshGrant, List.elem_iff, hcap, h]
  simp only [isAuthorized, Bool.if_true_left, Bool.decide_coe]
  rw [hcur]
  simp

/-- The grant `gB` after revocation. -/
def gBrev : AccessGrant := { gB with revoked := true }

/-- Witness for C10: after the grant for `B` is revoked, a fresh
claim-driven `grantAccess` for sessions `dev` makes `isAuthorized`
return true again. -/
theorem c10_regrant_after_revoke_witness :
    (∀ g ∈ [gBrev], g.peerKey = "B" → g.revoked = true)
    ∧ "inject" ∈ ["inject"]
    ∧ ("*" ∈ ["dev"] ∨ "dev" ∈ ["dev"])
    ∧ isAuthorized
        (grantAccess [gBrev] 5 "B" ["dev"] ["inject"] (some "e")) 99 "B" "dev"
        = true :=
  ⟨by decide, by decide, by decide,
    (c10_regrant_after_revoke [gBrev] "B" ["dev"] ["inject"] (some "e") 5
      "dev" (by decide) (by decide) (by decide)).2 99⟩

/-- Claimer-side classification of a response frame, `cli.ts` lines
1829-1841: an `ack` resolves `OK`, a `reject` resolves `Rejected`; any
other frame is ignored (the claimer keeps waiting). -/
def claimResponseCode (m : OutMsg) : Option Int :=
  if m.type == MsgType.ack then some EXIT_OK
  else if m.type == MsgType.reject then some EXIT_REJECTED
  else none

/-- A completed-handshake connection state. -/
def cs0 : ConnState :=
  { handshakeComplete := true, negotiatedVersion := some 2,
    peerEphemeralPub := some "peph", ephemeralPub := "eph" }

/-- The fresh global rate limiter with the default limits. -/
def rl0 : RateLimiter := { limits := DEFAULT_LIMITS, state := [] }

/-- A token issued by `X` for subject `A`. -/
def tokAX : InviteToken :=
  { iss := "X", sub := "A", ses := ["dev"], cap := ["inject"],
    iat := 0, exp := 1000000, nonce := "tn", sig := "tsig" }

/-- An oracle under which every signature verifies and every token string
decodes to `tokAX` with a valid signature. -/
def oracleAX : CryptoOracle :=
  { verifySignature := fun _ _ => true
    decodeToken := fun _ => some tokAX
    verifyTokenSig := fun _ => true
    verifyKeyRotation := fun _ => true
    shortKey := fun s => s
    decryptEphemeral := fun _ _ => some "m"
    decryptStatic := fun _ _ => some "m"
    injectOk := fun _ _ _ => true }

/-- A claim frame from sender `B` carrying an opaque token string. -/
def claimMsgB : P2PMessage :=
  { v := 2, type := .claim, from_ := "B", nonce := "n1", ts := 0,
    sig := "fsig", versions := none, version := none, ephemeralPub := none,
    token := some "tok", encryptPub := some "Benc", session := none,
    payload := none, keyRotation := none, reason := none }

/-- C1 counterexample: sender `B` claims `tokAX` (subject `A ≠ B`) whose
issuer `X` is not the responder `M`; all other gates pass, yet the
responder's reply carries the reason `token not issued by this peer`
(the issuer check of `cli.ts` line 2130 runs before the subject check of
line 2144), not the claimed `token not issued for you` — so the reply is
not independent of the token's other fields. -/
theorem c1_counterexample :
    tokAX.sub = "A" ∧ claimMsgB.from_ = "B" ∧ ("A" : String) ≠ "B"
    ∧ (handleLine oracleAX "M" "Menc" 0 cs0 rl0 [] [] []
        (some claimMsgB)).writes =
      [{ mkOut .reject "M" with
          reason := some "token not issued by this peer" }]
    ∧ ("token not issued by this peer" : String) ≠ "token not issued for you" := by
  decide

/-- C1 amended: token non-transferability holds once the token itself is
in order. For any claim frame that passes the signature, replay and
claims-rate gates, whose token parses (signature under `iss` valid, not
expired) and was issued by the responder, a subject different from the
frame sender is answered with exactly one reject frame whose reason is
`token not issued for you`, which the claimer resolves as `Rejected`;
the trust stores are untouched. -/
theorem c1_token_non_transferable (o : CryptoOracle)
    (myPublicKey myEncryptPub : String) (now : Int) (cs : ConnState)
    (rl : RateLimiter) (rp : ReplayState) (grants : List AccessGrant)
    (peers : List Peer) (msg : P2PMessage) (tok : String) (t : InviteToken)
    (htype : msg.type = .claim)
    (htok : msg.token = some tok)
    (htokne : tok ≠ "")
    (hsig : o.verifySignature msg msg.from_ = true)
    (hreplay : (replayCheck 300000 30000 now rp msg.nonce msg.ts).1 = true)
    (hrate : (rl.check now msg.from_ .claims).1 = true)
    (hparse : parseInviteTokenM o now tok = .ok t)
    (hiss : t.iss = myPublicKey)
    (hsub : t.sub ≠ msg.from_) :
    (handleLine o myPublicKey myEncryptPub now cs rl rp grants peers
        (some msg)).writes =
      [{ mkOut .reject myPublicKey with
          reason := some "token not issued for you" }]
    ∧ claimResponseCode
        { mkOut .reject myPublicKey with
          reason := some "token not issued for you" } = some EXIT_REJECTED
    ∧ (handleLine o myPublicKey myEncryptPub now cs rl rp grants peers
        (some msg)).grants = grants
    ∧ (handleLine o myPublicKey myEncryptPub now cs rl rp grants peers
        (some msg)).peers = peers := by
  have hres : handleLine o myPublicKey myEncryptPub now cs rl rp grants peers
      (some msg) =
      { conn := cs, rl := (rl.check now msg.from_ .claims).2
        replay := (replayCheck 300000 30000 now rp msg.nonce msg.ts).2
        grants := grants, peers := peers
        writes := [{ mkOut .reject myPublicKey with
            reason := some "token not issued for you" }]
        injected := [] } := by
    simp only [handleLine, htype, htok]
    simp [hsig, hreplay, hrate, strTruthy, htokne]
    simp only [claimBranch, hrate]
    rw [hparse]
    simp [hiss, hsub]
  rw [hres]
  refine ⟨rfl, rfl, rfl, rfl⟩

/-- A token issued by the responder `M` for subject `A`. -/
def tokMA : InviteToken :=
  { iss := "M", sub := "A", ses := ["dev"], cap := ["inject"],
    iat := 0, exp := 1000000, nonce := "tn", sig := "tsig" }

/-- An oracle under which every signature verifies and every token string
decodes to `tokMA` with a valid signature. -/
def oracleMA : CryptoOracle :=
  { verifySignature := fun _ _ => true
    decodeToken := fun _ => some tokMA
    verifyTokenSig := fun _ => true
    verifyKeyRotation := fun _ => true
    shortKey := fun s => s
    decryptEphemeral := fun _ _ => some "m"
    decryptStatic := fun _ _ => some "m"
    injectOk := fun _ _ _ => true }

/-- Witness for C1 amended: `B` claims the token `M` issued for `A`. -/
theorem c1_token_non_transferable_witness :
    (handleLine oracleMA "M" "Menc" 0 cs0 rl0 [] [] []
        (some claimMsgB)).writes =
      [{ mkOut .reject "M" with reason := some "token not issued for you" }]
    ∧ claimResponseCode
        { mkOut .reject "M" with reason := some "token not issued for you" }
        = some EXIT_REJECTED
    ∧ (handleLine oracleMA "M" "Menc" 0 cs0 rl0 [] [] []
        (some claimMsgB)).grants = []
    ∧ (handleLine oracleMA "M" "Menc" 0 cs0 rl0 [] [] []
        (some claimMsgB)).peers = [] :=
  c1_token_non_transferable oracleMA "M" "Menc" 0 cs0 rl0 [] [] []
    claimMsgB "tok" tokMA rfl rfl (by decide) rfl (by decide) (by decide)
    rfl rfl (by decide)

/-- C7 counterexample: an unparseable line is dropped with the rate
limiter untouched — no `invalidMessages` charge is possible because the
parse failure leaves no sender key (`cli.ts` lines 2018-2022 bail out
before any rate-limit call), contradicting the claimed charge. -/
theorem c7_counterexample :
    handleLine oracleAX "M" "Menc" 0 cs0 rl0 [] [] [] none =
      { conn := cs0, rl := rl0, replay := [], grants := [], peers := [],
        writes := [], injected := [] } := by
  decide

/-- C7 amended: a frame that fails to parse is dropped silently with no
rate-limit charge and no other effect; a frame with a bad signature, and
a frame failing the replay gate, are each dropped silently after
charging the sender's `invalidMessages` class (key-rotation frames are
exempt from both gates, and replay-gate failure leaves the nonce map
unchanged). -/
theorem c7_invalid_frame_handling (o : CryptoOracle)
    (myPublicKey myEncryptPub : String) (now : Int) (cs : ConnState)
    (rl : RateLimiter) (rp : ReplayState) (grants : List AccessGrant)
    (peers : List Peer) (msg : P2PMessage)
    (hne1 : msg.type ≠ .hello) (hne2 : msg.type ≠ .helloAck)
    (hnrot : ¬(msg.type = .keyRotation ∧ msg.keyRotation.isSome = true)) :
    (handleLine o myPublicKey myEncryptPub now cs rl rp grants peers none =
      { conn := cs, rl := rl, replay := rp, grants := grants, peers := peers,
        writes := [], injected := [] })
    ∧ (o.verifySignature msg msg.from_ = false →
        handleLine o myPublicKey myEncryptPub now cs rl rp grants peers
          (some msg) =
        { conn := cs, rl := (rl.check now msg.from_ .invalidMessages).2,
          replay := rp, grants := grants, peers := peers,
          writes := [], injected := [] })
    ∧ (o.verifySignature msg msg.from_ = true →
        (replayCheck 300000 30000 now rp msg.nonce msg.ts).1 = false →
        handleLine o myPublicKey myEncryptPub now cs rl rp grants peers
          (some msg) =
        { conn := cs, rl := (rl.check now msg.from_ .invalidMessages).2,
          replay := rp, grants := grants, peers := peers,
          writes := [], injected := [] }) := by
  have e1 : (msg.type == MsgType.hello) = false := by
    simp [hne1]
  have e2 : (msg.type == MsgType.helloAck) = false := by
    simp [hne2]
  have e3 : (msg.type == MsgType.keyRotation && msg.keyRotation.isSome) =
      false := by
    cases hb : (msg.type == MsgType.keyRotation) with
    | false => simp
    | true =>
        have := beq_iff_eq.1 hb
        cases hk : msg.keyRotation.isSome with
        | false => simp
        | true => exact absurd ⟨this, hk⟩ hnrot
  refine ⟨rfl, fun hsig => ?_, fun hsig hrep => ?_⟩
  · simp [handleLine, e1, e2, e3, hsig, hne1, hne2]
  · simp [handleLine, e1, e2, e3, hsig, hrep, hne1, hne2]

/-- An inject frame from sender `B`. -/
def injMsgB : P2PMessage :=
  { v := 2, type := .inject, from_ := "B", nonce := "n2", ts := 0,
    sig := "fsig", versions := none, version := none,
    ephemeralPub := some "beph", token := none, encryptPub := some "Benc",
    session := some "dev", payload := some "ct", keyRotation := none,
    reason := none }

/-- An oracle under which no frame signature verifies. -/
def oracleBadSig : CryptoOracle :=
  { verifySignature := fun _ _ => false
    decodeToken := fun _ => none
    verifyTokenSig := fun _ => false
    verifyKeyRotation := fun _ => false
    shortKey := fun s => s
    decryptEphemeral := fun _ _ => none
    decryptStatic := fun _ _ => none
    injectOk := fun _ _ _ => false }

/-- Witness for C7 amended: a badly signed inject frame is dropped and
charged. -/
theorem c7_invalid_frame_handling_witness :
    injMsgB.type ≠ MsgType.hello
    ∧ injMsgB.type ≠ MsgType.helloAck
    ∧ ¬(injMsgB.type = MsgType.keyRotation ∧ injMsgB.keyRotation.isSome = true)
    ∧ oracleBadSig.verifySignature injMsgB injMsgB.from_ = false
    ∧ handleLine oracleBadSig "M" "Menc" 0 cs0 rl0 [] [] [] (some injMsgB) =
      { conn := cs0, rl := (rl0.check 0 "B" .invalidMessages).2,
        replay := [], grants := [], peers := [],
        writes := [], injected := [] } :=
  ⟨by decide, by decide, by decide, rfl,
    (c7_invalid_frame_handling oracleBadSig "M" "Menc" 0 cs0 rl0 [] [] []
      injMsgB (by decide) (by decide) (by decide)).2.1 rfl⟩

end Wopr
